import Mathlib

/-!
Verification of the tech-pulse content-curation pipeline.

Shallow embedding of the pure core of `src/pipeline/scraper.py`,
`src/pipeline/bot.py` and `src/pipeline/publish_remote.py`:
dictionaries become records or association lists, Python strings become
`String` (or `List Char` where character-level reasoning is needed),
exceptions become `Option`, and the external services (feed fetcher,
OpenAI call, Telegram, GitHub HTTP) become explicit parameters holding
their observable responses.
-/

namespace TechPulse

/-- Replace every maximal run of characters satisfying `p` by the single
character `repl` (the semantics of Python `re.sub(r"[X]+", repl, s)` for a
character class `X`).  The flag records whether the previous character was
inside a run. -/
def collapseRuns (p : Char → Bool) (repl : Char) : List Char → Bool → List Char
  | [], _ => []
  | c :: rest, inRun =>
    if p c then
      if inRun then collapseRuns p repl rest true
      else repl :: collapseRuns p repl rest true
    else c :: collapseRuns p repl rest false

/-- Python `s.strip(ch)` on a character list: drop `ch` from both ends. -/
def stripCharL (ch : Char) (l : List Char) : List Char :=
  ((l.dropWhile (· == ch)).reverse.dropWhile (· == ch)).reverse

/-- Python `s.rstrip(ch)`: drop `ch` from the right end. -/
def rstripCharL (ch : Char) (l : List Char) : List Char :=
  (l.reverse.dropWhile (· == ch)).reverse

/-- Python `s.lower()`, character by character. -/
def pyToLower (s : String) : String :=
  String.mk (s.toList.map Char.toLower)

/-- Python `s.upper()`, character by character. -/
def pyToUpper (s : String) : String :=
  String.mk (s.toList.map Char.toUpper)

/-- Python `s.strip()`: drop whitespace from both ends. -/
def pyStrip (s : String) : String :=
  String.mk (((s.toList.dropWhile Char.isWhitespace).reverse.dropWhile
    Char.isWhitespace).reverse)

/-- Python `s.replace(a, b)` for single characters `a`, `b`. -/
def replaceChar (a b : Char) (s : String) : String :=
  String.mk (s.toList.map (fun c => if c == a then b else c))

theorem mem_collapseRuns {p : Char → Bool} {repl : Char} :
    ∀ (l : List Char) (b : Bool) (d : Char), d ∈ collapseRuns p repl l b →
      d = repl ∨ p d = false := by
  intro l
  induction l with
  | nil => intro b d h; simp [collapseRuns] at h
  | cons c rest ih =>
    intro b d h
    by_cases hc : p c
    · cases b with
      | true => simp [collapseRuns, hc] at h; exact ih true d h
      | false =>
        simp [collapseRuns, hc] at h
        rcases h with h | h
        · exact Or.inl h
        · exact ih true d h
    · simp [collapseRuns, hc] at h
      rcases h with h | h
      · subst h; exact Or.inr (by simpa using hc)
      · exact ih false d h

theorem mem_stripCharL {ch : Char} {l : List Char} {d : Char}
    (h : d ∈ stripCharL ch l) : d ∈ l := by
  unfold stripCharL at h
  rw [List.mem_reverse] at h
  have h2 := (List.dropWhile_sublist (l := (l.dropWhile (· == ch)).reverse)
    (p := (· == ch))).mem h
  rw [List.mem_reverse] at h2
  exact (List.dropWhile_sublist (l := l) (p := (· == ch))).mem h2

theorem mem_rstripCharL {ch : Char} {l : List Char} {d : Char}
    (h : d ∈ rstripCharL ch l) : d ∈ l := by
  unfold rstripCharL at h
  rw [List.mem_reverse] at h
  have h2 := (List.dropWhile_sublist (l := l.reverse) (p := (· == ch))).mem h
  rw [List.mem_reverse] at h2
  exact h2

/-! ## Scraper data model (`src/pipeline/scraper.py`) -/

/-- `VALID_CATEGORIES` from `scraper.py` line 37 (also `publish_remote.py`
line 35). -/
def VALID_CATEGORIES : List String :=
  ["ai", "gaming", "space", "technology", "medicine", "society", "robotics"]

/-- One configured RSS source: an element of the `sources` list loaded from
`rss_sources.json` (`load_sources`). -/
structure Source where
  name : String
  url : String
deriving DecidableEq, Repr

/-- A raw item of a parsed feed, as `feedparser` exposes it: `getattr` with
a default models an attribute that may be missing (`none`). -/
structure FeedItem where
  link : Option String
  title : Option String
  summary : Option String
  description : Option String
  published : String
deriving DecidableEq, Repr

/-- The normalized entry dict built in `scrape_feeds` (lines 144-151). -/
structure FeedEntry where
  source_name : String
  source_url : String
  title : String
  link : String
  published : String
  summary : String
deriving DecidableEq, Repr

/-- External effects of one scrape run: the per-source fetch (`none` models
`feedparser.parse` raising, line 130-134) and the HTML cleaner
`_clean_html` delegated to BeautifulSoup. -/
structure ScrapeEnv where
  fetch : Source → Option (List FeedItem)
  cleanHtml : String → String

/-- State threaded through `scrape_feeds`: the seen set (Python `set`,
modelled as a list with membership) and the accumulated `new_entries`. -/
structure ScrapeSt where
  seen : List String
  entries : List FeedEntry
deriving DecidableEq, Repr

/-- Body of the inner `for entry in feed.entries` loop of `scrape_feeds`
(lines 136-154): skip empty or already-seen links, otherwise emit a
normalized entry and add the link to the seen set immediately. -/
def scrapeStep (env : ScrapeEnv) (name url : String) (st : ScrapeSt)
    (item : FeedItem) : ScrapeSt :=
  let link := item.link.getD ""
  if link = "" ∨ st.seen.contains link then st
  else
    let summary_raw :=
      let s := item.summary.getD ""
      if s ≠ "" then s else item.description.getD ""
    let summary := env.cleanHtml summary_raw
    { seen := link :: st.seen,
      entries := st.entries ++
        [{ source_name := name, source_url := url,
           title := item.title.getD "Untitled", link := link,
           published := item.published, summary := summary.take 2000 }] }

/-- Body of the outer `for source in sources` loop of `scrape_feeds`
(lines 123-154): skip sources without a url, skip sources whose fetch
raises, otherwise process every item. -/
def scrapeSource (env : ScrapeEnv) (st : ScrapeSt) (source : Source) :
    ScrapeSt :=
  if source.url = "" then st
  else
    match env.fetch source with
    | none => st
    | some items => items.foldl (scrapeStep env source.name source.url) st

/-- `scrape_feeds` (lines 111-159): fold over all sources starting from the
loaded seen set; the final state holds the returned `new_entries` and the
seen set passed to `save_seen`. -/
def scrape_feeds (env : ScrapeEnv) (sources : List Source)
    (seen0 : List String) : ScrapeSt :=
  sources.foldl (scrapeSource env) { seen := seen0, entries := [] }

/-! ## Geo resolver (`_resolve_geo`, scraper.py lines 176-218)

Coordinates carry no arithmetic anywhere in the pipeline (they are only
copied), so they are embedded as `Int`; `float(...)` on them is the
identity. -/

/-- A canonical gazetteer location (`known_locations` values in
`geo_map.json`; `_resolve_geo` indexes `name`, `lat`, `lon`,
`countryCode` directly, so they are total). -/
structure Loc where
  name : String
  lat : Int
  lon : Int
  countryCode : String
deriving DecidableEq, Repr

/-- The gazetteer (`load_geo_map`): insertion-ordered dicts become
association lists iterated in order. -/
structure GeoMap where
  known_locations : List (String × Loc)
  company_hq : List (String × String)
deriving DecidableEq, Repr

/-- The model's raw geo guess: a JSON object whose four keys may each be
missing. -/
structure GeoRaw where
  name : Option String
  lat : Option Int
  lon : Option Int
  countryCode : Option String
deriving DecidableEq, Repr

/-- A resolved geo dict as `_resolve_geo` returns it: all four keys
present. -/
structure Geo where
  name : String
  lat : Int
  lon : Int
  countryCode : String
deriving DecidableEq, Repr

/-- Python `key.lower() in geo_name.lower()`: case-insensitive substring
containment. -/
def containsCI (hay needle : String) : Bool :=
  decide ((pyToLower needle).toList <:+: (pyToLower hay).toList)

/-- `_resolve_geo`: `none` input models `geo_raw` being `None` (either the
`geo` key absent from the parsed JSON or explicitly `null`); an all-empty
object is falsy in Python (`if not geo_raw`), hence also rejected.
Precedence: first known-location key contained in the guessed name, then
first company whose HQ key exists in `known_locations`, then the model's
own coordinates when both are present, else nothing. -/
def resolve_geo (geo_raw : Option GeoRaw) (geo_map : GeoMap) : Option Geo :=
  match geo_raw with
  | none => none
  | some g =>
    if g = ⟨none, none, none, none⟩ then none
    else
      let geo_name := g.name.getD ""
      match geo_map.known_locations.find? (fun kl => containsCI geo_name kl.1) with
      | some kl => some ⟨kl.2.name, kl.2.lat, kl.2.lon, kl.2.countryCode⟩
      | none =>
        match geo_map.company_hq.find? (fun ch =>
            containsCI geo_name ch.1 &&
            (geo_map.known_locations.find? (fun kl => kl.1 = ch.2)).isSome) with
        | some ch =>
          match geo_map.known_locations.find? (fun kl => kl.1 = ch.2) with
          | some kl => some ⟨kl.2.name, kl.2.lat, kl.2.lon, kl.2.countryCode⟩
          | none => none
        | none =>
          match g.lat, g.lon with
          | some la, some lo => some ⟨g.name.getD "Unknown", la, lo, g.countryCode.getD ""⟩
          | _, _ => none

/-! ## Rewriter post-processing (`process_article`, scraper.py 221-344) -/

/-- A JSON value, as far as the category and tags handling inspects one. -/
inductive JVal where
  | null : JVal
  | str : String → JVal
  | num : Int → JVal
  | bool : Bool → JVal
  | arr : List JVal → JVal

/-- Python `str(t)` as applied to tag elements (line 315).  The `arr`
rendering is abbreviated; no claim exercises it. -/
def jvalStr : JVal → String
  | .null => "None"
  | .str s => s
  | .num n => toString n
  | .bool b => if b then "True" else "False"
  | .arr _ => "[...]"

/-- The parsed rewriter JSON (`result = json.loads(raw_text)`): each key
may be absent.  `category` and `tags` keep full JSON values because the
code branches on their type; `geo` of `none` covers both an absent key and
an explicit `null` (Python `result.get("geo")` returns `None` for both). -/
structure RewriteResult where
  category : Option JVal
  title : Option String
  excerpt : Option String
  content : Option String
  tags : Option JVal
  geo : Option GeoRaw

/-- Lines 304-306: `result.get("category", "technology").lower()` then
membership check.  A present non-string value makes `.lower()` raise
`AttributeError`, caught by the blanket `except` (line 339) — modelled as
`none`, dropping the entry. -/
def normalize_category : Option JVal → Option String
  | none => some "technology"
  | some (.str s) =>
    let c := pyToLower s
    some (if VALID_CATEGORIES.contains c then c else "technology")
  | some _ => none

/-- Lines 312-315: a non-list `tags` value is replaced by `[]`; the list is
capped at 7 and each element is `str(t).lower().strip()`. -/
def normalize_tags : Option JVal → List String
  | some (.arr l) => (l.take 7).map (fun t => pyStrip (pyToLower (jvalStr t)))
  | some _ => []
  | none => []

/-! ## Candidate / article dicts

Candidates and publish payloads are Python dicts with a known key set;
each possibly-absent key is an `Option` field.  The `geo` key can be
absent, explicitly `None`, or a resolved geo dict — three cases the code
distinguishes (`.get("geo", {})` vs `.get("geo")`), kept apart in
`GeoField`. -/

/-- A `source` sub-dict (`{"name": ..., "url": ...}`). -/
structure SourceRef where
  name : Option String
  url : Option String
deriving DecidableEq, Repr

/-- An `image` sub-dict. -/
structure Image where
  url : Option String
  alt : Option String
deriving DecidableEq, Repr

/-- The three observable states of a dict's `geo` key. -/
inductive GeoField where
  | absent : GeoField
  | null : GeoField
  | obj : Geo → GeoField
deriving DecidableEq, Repr

/-- An article candidate / publish payload dict. -/
structure Article where
  id : Option String
  title : Option String
  category : Option String
  date : Option String
  published : Option String
  excerpt : Option String
  content : Option String
  tags : Option (List String)
  source_name : Option String
  original_link : Option String
  source_url : Option String
  source : Option SourceRef
  image : Option Image
  geo : GeoField
  featured : Option Bool
deriving DecidableEq, Repr

/-- `process_article` (scraper.py 221-344).  The OpenAI call is external:
`resp` is its parsed JSON on success, `none` when the key is missing, the
call raised, or `json.loads` failed (all of which return `None`).
Category normalization runs first and its `AttributeError` path (non-string
category) also drops the entry. -/
def process_article (resp : Option RewriteResult) (entry : FeedEntry)
    (geo_map : GeoMap) : Option Article :=
  match resp with
  | none => none
  | some r =>
    match normalize_category r.category with
    | none => none
    | some category =>
      let excerpt := (r.excerpt.getD "").take 250
      let tags := normalize_tags r.tags
      let geo := resolve_geo r.geo geo_map
      some { id := none,
             title := some (r.title.getD entry.title),
             category := some category,
             date := none,
             published := some entry.published,
             excerpt := some excerpt,
             content := some (r.content.getD ""),
             tags := some tags,
             source_name := some entry.source_name,
             original_link := some entry.link,
             source_url := some entry.source_url,
             source := none,
             image := none,
             geo := match geo with | none => .null | some g => .obj g,
             featured := none }

/-! ## Telegram bot (`src/pipeline/bot.py`) -/

/-- ASCII fragment of Python's `\w` class (`bot.py` `slugify` uses
`re.sub(r"[^\w\s-]", "", ...)`; the non-ASCII word characters `\w` also
matches are not exercised by any claim). -/
def isPyWordChar (c : Char) : Bool :=
  c.isAlphanum || c == '_'

/-- `slugify` (bot.py 70-76). -/
def slugify (text : String) : String :=
  let l := (pyStrip (pyToLower text)).toList
  let l := l.filter (fun c => isPyWordChar c || c.isWhitespace || c == '-')
  let l := collapseRuns (fun c => c.isWhitespace || c == '_') '-' l false
  let l := collapseRuns (fun c => c == '-') '-' l false
  String.mk (stripCharL '-' (l.take 60))

/-- `make_article_id` (bot.py 79-82); `dateStr` stands for
`datetime.now(timezone.utc).strftime("%Y-%m-%d")`. -/
def make_article_id (dateStr : String) (title : String) : String :=
  dateStr ++ "-" ++ slugify title

/-- `CATEGORY_EMOJI` (bot.py 59-67). -/
def CATEGORY_EMOJI : List (String × String) :=
  [("ai", "🧠"), ("gaming", "🎮"), ("space", "🚀"), ("technology", "⚙️"),
   ("medicine", "💊"), ("society", "👥"), ("robotics", "🤖")]

/-- `format_candidate` (bot.py 88-103).  Returns `none` when the Python
code raises: `article.get("geo", {})` yields `None` when the `geo` key is
present with value `None`, and `None.get("name", "Global")` then raises
`AttributeError`.  An absent key falls back to `{}` and displays
"Global". -/
def format_candidate (a : Article) : Option String :=
  let cat := a.category.getD "technology"
  let emoji := ((CATEGORY_EMOJI.find? (fun p => p.1 == cat)).map (·.2)).getD "📰"
  match a.geo with
  | .null => none
  | g =>
    let geo_name := match g with
      | .absent => "Global"
      | .null => "Global"
      | .obj geo => geo.name
    let tags := String.intercalate " "
      (((a.tags.getD []).take 5).map (fun t => "#" ++ replaceChar '-' '_' t))
    some ("📰 <b>NEW ARTICLE CANDIDATE</b>\n\n" ++
      "Category: " ++ emoji ++ " <b>" ++ pyToUpper cat ++ "</b>\n" ++
      "Title: <b>" ++ a.title.getD "Untitled" ++ "</b>\n\n" ++
      "Excerpt: <i>" ++ (a.excerpt.getD "").take 200 ++ "</i>\n\n" ++
      "Source: " ++
        (match a.source with
         | some s => s.name.getD "Unknown"
         | none => "Unknown") ++ "\n" ++
      "Location: 📍 " ++ geo_name ++ "\n" ++
      "Tags: " ++ tags ++ "\n")

/-- The `pending` dict (`id -> candidate`), as an insertion-ordered
association list. -/
abbrev Pending := List (String × Article)

/-- Python `pending.get(k)`. -/
def lookupA (l : Pending) (k : String) : Option Article :=
  (l.find? (fun p => p.1 == k)).map (·.2)

/-- Python `del pending[k]` (dict keys are unique, so filtering is
equivalent). -/
def eraseA (l : Pending) (k : String) : Pending :=
  l.filter (fun p => p.1 != k)

/-- Python `pending[k] = v`: replace in place when the key exists,
otherwise append. -/
def insertA : Pending → String → Article → Pending
  | [], k, v => [(k, v)]
  | p :: l, k, v => if p.1 == k then (k, v) :: l else p :: insertA l k v

/-- Result dict of `publish_to_github`. -/
structure PublishResult where
  success : Bool
  message : String
  url : String
deriving DecidableEq, Repr

/-- The bot's module-level mutable state touched by the approve flow:
`pending` and the `published` titles list (bot.py 55-56). -/
structure BotState where
  pending : Pending
  published : List String
deriving DecidableEq, Repr

/-- The publish payload built in the approve branch of `handle_callback`
(bot.py 205-220); `now` stands for `datetime.now(timezone.utc).isoformat()`.
The payload is a fresh dict carrying only the listed keys; Python's
`get("published") or get("date", now)` treats an empty string as falsy. -/
def build_article_payload (now : String) (article_id : String) (a : Article) :
    Article :=
  { id := some article_id,
    title := some (a.title.getD "Untitled"),
    category := some (a.category.getD "technology"),
    date := some (
      let pub := a.published.getD ""
      if pub ≠ "" then pub else a.date.getD now),
    excerpt := some (a.excerpt.getD ""),
    source := some
      { name := some (match a.source_name with
          | some s => s
          | none => (a.source.map (fun s => s.name.getD "Unknown")).getD "Unknown"),
        url := some (match a.original_link with
          | some s => s
          | none => (a.source.map (fun s => s.url.getD "")).getD "") },
    image := some (a.image.getD
      { url := some "/images/articles/placeholder.jpg",
        alt := some "Article image" }),
    tags := some (a.tags.getD []),
    geo := (match a.geo with | .absent => .null | g => g),
    featured := some (a.featured.getD false),
    content := some (a.content.getD ""),
    published := none,
    source_name := none,
    original_link := none,
    source_url := none }

/-- The `action == "approve"` branch of `handle_callback` (bot.py 198-239).
The GitHub call is external: `publish` maps the outbound payload to the
result dict the call returned.  `none` models `article["title"]` raising
`KeyError` (line 200) — never hit by pipeline-produced candidates.  On
success the title is appended to `published` and the entry deleted from
`pending`; on failure (and on a stale id) the state is untouched. -/
def handle_approve (now : String) (st : BotState) (article_id : String)
    (publish : Article → PublishResult) : Option BotState :=
  match lookupA st.pending article_id with
  | none => some st
  | some article =>
    match article.title with
    | none => none
    | some title =>
      let payload := build_article_payload now article_id article
      let result := publish payload
      if result.success then
        some { pending := eraseA st.pending article_id,
               published := st.published ++ [title] }
      else some st

/-- The `action == "reject"` branch of `handle_callback` (bot.py 241-247):
unconditional removal of a present candidate. -/
def handle_reject (st : BotState) (article_id : String) : BotState :=
  match lookupA st.pending article_id with
  | none => st
  | some _ => { st with pending := eraseA st.pending article_id }

/-- `handle_message` (bot.py 258-283): consume the reviewer's next text as
the new title of the candidate under edit.  `editing` is the
`chat_id -> article id` map; `dateStr` feeds `make_article_id`.  The
candidate's `title` is overwritten, its id recomputed from the new title,
and the store entry re-keyed. -/
def handle_message (dateStr : String) (editing : List (Nat × String))
    (pending : Pending) (user_id : Nat) (text : String) :
    List (Nat × String) × Pending :=
  match (editing.find? (fun p => p.1 == user_id)).map (·.2) with
  | none => (editing, pending)
  | some article_id =>
    let editing' := editing.filter (fun p => p.1 != user_id)
    match lookupA pending article_id with
    | none => (editing', pending)
    | some article =>
      let new_title := pyStrip text
      let article' := { article with title := some new_title }
      let new_id := make_article_id dateStr new_title
      let article'' := { article' with id := some new_id }
      (editing', insertA (eraseA pending article_id) new_id article'')

/-! ## Remote publisher (`src/pipeline/publish_remote.py`)

`unicodedata.normalize("NFKD", s)` decomposes each character into a
sequence of characters; it is kept abstract as a parameter
`nfkd : Char → List Char`, because the only facts the claims need are
produced downstream by `.encode("ascii", "ignore")`, which keeps exactly
the code points below 128. -/

/-- The character class `[a-z0-9]`. -/
def isLowerDigit (c : Char) : Bool :=
  (decide ('a' ≤ c) && decide (c ≤ 'z')) || (decide ('0' ≤ c) && decide (c ≤ '9'))

/-- Python `.encode("ascii", "ignore").decode("ascii")`. -/
def asciiIgnore (l : List Char) : List Char :=
  l.filter (fun c => decide (c.toNat < 128))

/-- The slug built for a missing id (publish_remote.py 126-132):
lowercase, NFKD-decompose, drop non-ASCII, collapse `[^a-z0-9]+` runs to
single hyphens, strip hyphens, cap at 60, strip trailing hyphens again. -/
def pubGenSlug (nfkd : Char → List Char) (title : String) : List Char :=
  let l := (pyToLower title).toList
  let l := (l.map nfkd).flatten
  let l := asciiIgnore l
  let l := collapseRuns (fun c => !(isLowerDigit c)) '-' l false
  rstripCharL '-' ((stripCharL '-' l).take 60)

/-- The generated id `f"{date_str}-{slug}"` (line 133); the title defaults
to `"untitled"` (line 127). -/
def pubGenId (nfkd : Char → List Char) (dateStr : String)
    (title? : Option String) : String :=
  String.mk (dateStr.toList ++ '-' :: pubGenSlug nfkd (title?.getD "untitled"))

/-- Sanitization of an id that is already present (lines 136-140): NFKD,
drop non-ASCII, lowercase, collapse `[^a-z0-9-]+` runs to single hyphens,
strip leading/trailing hyphens. -/
def pubSanitizeId (nfkd : Char → List Char) (old_id : String) : String :=
  let l := (old_id.toList.map nfkd).flatten
  let l := asciiIgnore l
  let l := l.map Char.toLower
  let l := collapseRuns (fun c => !(isLowerDigit c || c == '-')) '-' l false
  String.mk (rstripCharL '-' (stripCharL '-' l))

/-- The category used for the target path (lines 119-121): coerce anything
outside `VALID_CATEGORIES` to `"technology"`. -/
def pubCategory (a : Article) : String :=
  let c := a.category.getD "technology"
  if VALID_CATEGORIES.contains c then c else "technology"

/-! The in-place mutations `publish_to_github` performs on its argument
dict (lines 118-146), split into the three source blocks; `dateStr` is the
`%Y-%m-%d` form and `nowIso` the full
`datetime.now(timezone.utc).isoformat()` timestamp. -/

/-- Category block (lines 119-122): `article["category"]` is overwritten
only when the present-or-defaulted value is invalid. -/
def pubNormCategory (a : Article) : Article :=
  if VALID_CATEGORIES.contains (a.category.getD "technology") then a
  else { a with category := some "technology" }

/-- Id block (lines 125-142): a falsy id is generated from the title; a
present one is re-assigned only when sanitization changes it. -/
def pubNormId (nfkd : Char → List Char) (dateStr : String) (a : Article) :
    Article :=
  match a.id with
  | none => { a with id := some (pubGenId nfkd dateStr a.title) }
  | some s =>
    if s = "" then { a with id := some (pubGenId nfkd dateStr a.title) }
    else if pubSanitizeId nfkd s = s then a
    else { a with id := some (pubSanitizeId nfkd s) }

/-- Date block (lines 145-146): a falsy date defaults to `nowIso`. -/
def pubNormDate (nowIso : String) (a : Article) : Article :=
  match a.date with
  | none => { a with date := some nowIso }
  | some d => if d = "" then { a with date := some nowIso } else a

/-- All mutations `publish_to_github` performs on the article dict, in
source order. -/
def publish_normalize (nfkd : Char → List Char) (dateStr nowIso : String)
    (a : Article) : Article :=
  pubNormDate nowIso (pubNormId nfkd dateStr (pubNormCategory a))

/-- `generate_mdx` (lines 46-95).  The five direct key accesses
(`data["id"]` etc.) raise `KeyError` when absent, modelled as `none`;
`data.get("geo") or {}` treats both an absent and a `None` geo as the
empty dict, so only a real geo dict produces coordinate lines. -/
def generate_mdx (data : Article) : Option String :=
  match data.id, data.title, data.category, data.date, data.excerpt with
  | some id0, some title, some category, some date, some excerpt =>
    let esc := fun (s : String) =>
      String.mk ((s.toList.map (fun c =>
        if c == '"' then ['\\', '"'] else [c])).flatten)
    let source := data.source.getD { name := none, url := none }
    let image := data.image.getD { url := none, alt := none }
    let tags := data.tags.getD []
    let geoLines : List String :=
      match data.geo with
      | .obj g =>
        ["geo:",
         "  name: \"" ++ g.name ++ "\"",
         "  lat: " ++ toString g.lat,
         "  lon: " ++ toString g.lon,
         "  countryCode: \"" ++ g.countryCode ++ "\""]
      | _ =>
        ["geo:",
         "  name: \"Global\"",
         "  lat: 0",
         "  lon: 0",
         "  countryCode: \"XX\""]
    some (String.intercalate "\n" (
      ["---",
       "id: \"" ++ id0 ++ "\"",
       "title: \"" ++ esc title ++ "\"",
       "category: \"" ++ category ++ "\"",
       "date: \"" ++ date ++ "\"",
       "excerpt: \"" ++ esc excerpt ++ "\"",
       "source:",
       "  name: \"" ++ source.name.getD "" ++ "\"",
       "  url: \"" ++ source.url.getD "" ++ "\"",
       "image:",
       "  url: \"" ++ image.url.getD "/images/articles/placeholder.jpg" ++ "\"",
       "  alt: \"" ++ esc (image.alt.getD "Article image") ++ "\"",
       "tags: [" ++ String.intercalate ", "
         (tags.map (fun t => "\"" ++ t ++ "\"")) ++ "]"]
      ++ geoLines ++
      ["featured: " ++ (if data.featured.getD false then "true" else "false"),
       "approved: true",
       "---",
       "",
       pyStrip (data.content.getD ""),
       ""]))
  | _, _, _, _, _ => none

/-- `get_existing_file_sha` (lines 98-104): the GitHub contents endpoint is
external state, modelled as a map from path to the sha of the document
there (`none` = no document / non-200). -/
def get_existing_file_sha (repo : String → Option String)
    (file_path : String) : Option String :=
  repo file_path

/-- The JSON body of the create-or-update PUT (lines 157-165).  `content`
holds the serialized MDX; the base64 transport encoding (line 159) is
invertible and inspected by no claim, so it is omitted. -/
structure GitPayload where
  message : String
  content : String
  branch : String
  sha : Option String
deriving DecidableEq, Repr

/-- Lines 157-165: the payload starts with an "Add article" commit message
and no concurrency token; when a document already exists at the path, its
sha is attached and the message switched to "Update article". -/
def build_put_payload (branch : String) (title : String) (mdx : String)
    (existing_sha : Option String) : GitPayload :=
  match existing_sha with
  | some sha =>
    { message := "Update article: " ++ title.take 60, content := mdx,
      branch := branch, sha := some sha }
  | none =>
    { message := "Add article: " ++ title.take 60, content := mdx,
      branch := branch, sha := none }

/-- The pure core of `publish_to_github` (lines 107-167), up to the
outbound PUT: normalize the article dict, compute the target path from the
validated category and the (now sanitized) id, serialize, look up an
existing document, and assemble the PUT payload.  Returns the mutated
dict, the path and the payload; `none` models the missing-credential early
returns (113-116, which precede every mutation) and the `KeyError` cases
of `generate_mdx`. -/
def publish_to_github (nfkd : Char → List Char)
    (repo : String → Option String) (branch dateStr nowIso : String)
    (hasCreds : Bool) (article : Article) :
    Option (Article × String × GitPayload) :=
  if !hasCreds then none
  else
    let a := publish_normalize nfkd dateStr nowIso article
    let category := pubCategory article
    let file_path := "content/" ++ category ++ "/" ++ a.id.getD "" ++ ".mdx"
    match generate_mdx a with
    | none => none
    | some mdx =>
      let existing_sha := get_existing_file_sha repo file_path
      some (a, file_path, build_put_payload branch (a.title.getD "") mdx existing_sha)

/-! ## Store lemmas -/

theorem lookupA_insertA_self (l : Pending) (k : String) (v : Article) :
    lookupA (insertA l k v) k = some v := by
  induction l with
  | nil => simp [insertA, lookupA, List.find?]
  | cons p l ih =>
    by_cases h : p.1 == k
    · simp [insertA, h, lookupA, List.find?]
    · simp only [insertA, h, if_neg, Bool.false_eq_true, not_false_eq_true,
        if_false]
      simpa [lookupA, List.find?, h] using ih

theorem lookupA_insertA_ne (l : Pending) (k k' : String) (v : Article)
    (hne : k' ≠ k) : lookupA (insertA l k v) k' = lookupA l k' := by
  have hkk : ¬ k = k' := fun hh => hne hh.symm
  have hb2 : (k == k') = false := by simp [hkk]
  induction l with
  | nil => simp [insertA, lookupA, List.find?, hb2]
  | cons p l ih =>
    by_cases h : p.1 == k
    · have hpk : p.1 = k := by simpa using h
      simp [insertA, h, lookupA, List.find?, hb2, hpk]
    · by_cases h' : p.1 == k'
      · simp [insertA, h, lookupA, List.find?, h']
      · simp only [insertA, h, Bool.false_eq_true, not_false_eq_true, if_false]
        simpa [lookupA, List.find?, h'] using ih

theorem lookupA_eraseA_self (l : Pending) (k : String) :
    lookupA (eraseA l k) k = none := by
  induction l with
  | nil => simp [eraseA, lookupA]
  | cons p l ih =>
    by_cases h : p.1 == k
    · have hb : (p.1 != k) = false := by simp [bne, h]
      simp only [eraseA, List.filter, hb] at ih ⊢
      exact ih
    · have hb : (p.1 != k) = true := by simp [bne, h]
      simp only [eraseA, List.filter, hb] at ih ⊢
      simp only [lookupA, List.find?, h] at ih ⊢
      exact ih

theorem lookupA_eraseA_ne (l : Pending) (k k' : String) (hne : k' ≠ k) :
    lookupA (eraseA l k) k' = lookupA l k' := by
  have hkk : ¬ k = k' := fun hh => hne hh.symm
  have hb2 : (k == k') = false := by simp [hkk]
  induction l with
  | nil => simp [eraseA, lookupA]
  | cons p l ih =>
    by_cases h : p.1 == k
    · have hpk : p.1 = k := by simpa using h
      simpa [eraseA, lookupA, h, List.find?, hpk, hb2] using ih
    · have hb : p.1 != k := by simpa [bne] using h
      by_cases h' : p.1 == k'
      · simp [eraseA, lookupA, hb, List.find?, h']
      · simpa [eraseA, lookupA, hb, List.find?, h'] using ih

/-! ## Concrete fixtures for witnesses (modelled on `cmd_test`,
bot.py 151-174) -/

/-- The test candidate of `cmd_test`, with integer coordinates. -/
def sampleArticle : Article :=
  { id := some "2025-10-12-test-article-pipeline-check",
    title := some "Test Article — Pipeline Check",
    category := some "technology",
    date := some "2025-10-12T00:00:00+00:00",
    published := none,
    excerpt := some "This is a test article to verify the pipeline is working correctly.",
    content := some "## Test Article",
    tags := some ["test", "pipeline"],
    source_name := none, original_link := none, source_url := none,
    source := some { name := some "Tech Pulse Test",
                     url := some "https://tech-pulse-delta.vercel.app" },
    image := some { url := some "/images/articles/test.jpg",
                    alt := some "Test article image" },
    geo := .obj { name := "Zagreb, Croatia", lat := 45, lon := 15,
                  countryCode := "HR" },
    featured := none }

/-- A candidate whose category is not in the fixed set. -/
def bogusArticle : Article :=
  { id := some "2025-10-12-x", title := some "X", category := some "bogus",
    date := some "2025-10-12T00:00:00+00:00", published := none,
    excerpt := some "e", content := some "c", tags := some [],
    source_name := none, original_link := none, source_url := none,
    source := none, image := none, geo := .absent, featured := none }

/-! ## C1: approve / publish-failure handling -/

/-- C1: for a pending candidate, the approve handler removes the candidate
from the store and appends its title to the published-history list exactly
when the publish call reports success; on failure the whole bot state
(store and history) is left unchanged. -/
theorem approve_store_history (now : String) (st : BotState)
    (article_id : String) (publish : Article → PublishResult)
    (article : Article) (title : String)
    (hmem : lookupA st.pending article_id = some article)
    (htitle : article.title = some title) :
    ((publish (build_article_payload now article_id article)).success = true →
      handle_approve now st article_id publish =
        some { pending := eraseA st.pending article_id,
               published := st.published ++ [title] }) ∧
    ((publish (build_article_payload now article_id article)).success = false →
      handle_approve now st article_id publish = some st) := by
  constructor <;> intro hs <;> simp [handle_approve, hmem, htitle, hs]

/-- Witness for C1 at the `cmd_test` candidate: a failing publish leaves
the state untouched, a succeeding one removes the entry and records the
title. -/
theorem approve_store_history_witness :
    lookupA [("id1", sampleArticle)] "id1" = some sampleArticle ∧
    sampleArticle.title = some "Test Article — Pipeline Check" ∧
    handle_approve "2025-10-12T00:00:00+00:00"
        ⟨[("id1", sampleArticle)], []⟩ "id1"
        (fun _ => ⟨false, "GitHub API error (401): Bad credentials", ""⟩) =
      some ⟨[("id1", sampleArticle)], []⟩ ∧
    handle_approve "2025-10-12T00:00:00+00:00"
        ⟨[("id1", sampleArticle)], []⟩ "id1"
        (fun _ => ⟨true, "ok", "u"⟩) =
      some ⟨eraseA [("id1", sampleArticle)] "id1",
            [] ++ ["Test Article — Pipeline Check"]⟩ := by
  refine ⟨by decide, by decide, ?_, ?_⟩
  · exact (approve_store_history "2025-10-12T00:00:00+00:00"
      ⟨[("id1", sampleArticle)], []⟩ "id1"
      (fun _ => ⟨false, "GitHub API error (401): Bad credentials", ""⟩)
      sampleArticle "Test Article — Pipeline Check"
      (by decide) (by decide)).2 rfl
  · exact (approve_store_history "2025-10-12T00:00:00+00:00"
      ⟨[("id1", sampleArticle)], []⟩ "id1"
      (fun _ => ⟨true, "ok", "u"⟩)
      sampleArticle "Test Article — Pipeline Check"
      (by decide) (by decide)).1 rfl

/-! ## C6: title edit -/

/-- C6 counterexample: the title-edit flow does NOT retain every candidate
field other than the identifier — the `title` field itself is overwritten
with the submitted text.  Editing the stored `cmd_test` candidate to
"New Title" stores a candidate whose title differs from the original. -/
theorem edit_changes_title_field :
    (lookupA (handle_message "2025-10-12" [(7, "id1")]
        [("id1", sampleArticle)] 7 "New Title").2 "2025-10-12-new-title").map
      Article.title = some (some "New Title") ∧
    sampleArticle.title ≠ some "New Title" := by
  constructor
  · decide
  · decide

/-- C6 (amended): the title-edit recomputes the identifier from the new
title and re-keys the store entry under it; the stored candidate is the
old one with only `title` and `id` replaced (every other field retained);
the old key is gone whenever the new key differs, and unrelated keys are
untouched. -/
theorem edit_rekeys_store (dateStr : String)
    (editing : List (Nat × String)) (pending : Pending) (user_id : Nat)
    (text : String) (article_id : String) (article : Article)
    (hsession : (editing.find? (fun p => p.1 == user_id)).map (·.2) =
      some article_id)
    (hmem : lookupA pending article_id = some article) :
    lookupA (handle_message dateStr editing pending user_id text).2
        (make_article_id dateStr (pyStrip text)) =
      some { article with title := some (pyStrip text),
                          id := some (make_article_id dateStr (pyStrip text)) } ∧
    (make_article_id dateStr (pyStrip text) ≠ article_id →
      lookupA (handle_message dateStr editing pending user_id text).2
        article_id = none) ∧
    (∀ k, k ≠ article_id → k ≠ make_article_id dateStr (pyStrip text) →
      lookupA (handle_message dateStr editing pending user_id text).2 k =
        lookupA pending k) := by
  unfold handle_message
  rw [hsession]
  simp only [hmem]
  refine ⟨lookupA_insertA_self _ _ _, ?_, ?_⟩
  · intro hne
    rw [lookupA_insertA_ne _ _ _ _ (Ne.symm hne)]
    exact lookupA_eraseA_self _ _
  · intro k hk1 hk2
    rw [lookupA_insertA_ne _ _ _ _ hk2]
    exact lookupA_eraseA_ne _ _ _ hk1

/-- Witness for C6 (amended) at the `cmd_test` candidate. -/
theorem edit_rekeys_store_witness :
    lookupA [("id1", sampleArticle)] "id1" = some sampleArticle ∧
    lookupA (handle_message "2025-10-12" [(7, "id1")]
        [("id1", sampleArticle)] 7 "New Title").2 "2025-10-12-new-title" =
      some { sampleArticle with title := some "New Title",
                                id := some "2025-10-12-new-title" } := by
  have e1 : pyStrip "New Title" = "New Title" := by decide
  have e2 : make_article_id "2025-10-12" "New Title" = "2025-10-12-new-title" := by
    decide
  have h := (edit_rekeys_store "2025-10-12" [(7, "id1")]
    [("id1", sampleArticle)] 7 "New Title" "id1" sampleArticle
    (by decide) (by decide)).1
  rw [e1, e2] at h
  exact ⟨by decide, h⟩

/-! ## C7: publisher mutation of the candidate dict -/

/-- The category block only ever touches the `category` field. -/
theorem pubNormCategory_shape (a : Article) :
    ∃ v, pubNormCategory a = { a with category := v } := by
  unfold pubNormCategory
  split
  · exact ⟨a.category, rfl⟩
  · exact ⟨some "technology", rfl⟩

/-- The id block only ever touches the `id` field. -/
theorem pubNormId_shape (nfkd : Char → List Char) (dateStr : String)
    (a : Article) : ∃ v, pubNormId nfkd dateStr a = { a with id := v } := by
  rcases hb : a.id with _ | s
  · simp only [pubNormId, hb]
    exact ⟨some (pubGenId nfkd dateStr a.title), rfl⟩
  · simp only [pubNormId, hb]
    by_cases hs : s = ""
    · rw [if_pos hs]
      exact ⟨some (pubGenId nfkd dateStr a.title), rfl⟩
    · rw [if_neg hs]
      by_cases hsan : pubSanitizeId nfkd s = s
      · rw [if_pos hsan]
        exact ⟨a.id, rfl⟩
      · rw [if_neg hsan]
        exact ⟨some (pubSanitizeId nfkd s), rfl⟩

/-- The date block only ever touches the `date` field. -/
theorem pubNormDate_shape (nowIso : String) (a : Article) :
    ∃ v, pubNormDate nowIso a = { a with date := v } := by
  rcases hb : a.date with _ | d
  · simp only [pubNormDate, hb]
    exact ⟨some nowIso, rfl⟩
  · simp only [pubNormDate, hb]
    by_cases hd : d = ""
    · rw [if_pos hd]
      exact ⟨some nowIso, rfl⟩
    · rw [if_neg hd]
      exact ⟨a.date, rfl⟩

/-- C7 counterexample: `publish_to_github` mutates its input dict.  For a
candidate with category `"bogus"` the call overwrites
`article["category"]` with `"technology"` (publish_remote.py 119-122), so
the dict after the call differs from the dict before it. -/
theorem publisher_mutates_input :
    publish_normalize (fun c => [c]) "2025-10-12" "2025-10-12T00:00:00+00:00"
      bogusArticle ≠ bogusArticle ∧
    (publish_normalize (fun c => [c]) "2025-10-12" "2025-10-12T00:00:00+00:00"
      bogusArticle).category = some "technology" := by
  constructor
  · decide
  · decide

/-- C7 (amended): the publisher mutates at most the `category`, `id` and
`date` keys of the candidate dict (coercing an invalid category,
generating or sanitizing the id, defaulting a missing date); every other
field survives the call unchanged, and a candidate whose category is
valid, whose id is present, non-empty and already sanitized, and whose
date is present and non-empty is not mutated at all. -/
theorem publisher_frame (nfkd : Char → List Char) (dateStr nowIso : String)
    (a : Article) :
    ((publish_normalize nfkd dateStr nowIso a).title = a.title ∧
     (publish_normalize nfkd dateStr nowIso a).published = a.published ∧
     (publish_normalize nfkd dateStr nowIso a).excerpt = a.excerpt ∧
     (publish_normalize nfkd dateStr nowIso a).content = a.content ∧
     (publish_normalize nfkd dateStr nowIso a).tags = a.tags ∧
     (publish_normalize nfkd dateStr nowIso a).source_name = a.source_name ∧
     (publish_normalize nfkd dateStr nowIso a).original_link = a.original_link ∧
     (publish_normalize nfkd dateStr nowIso a).source_url = a.source_url ∧
     (publish_normalize nfkd dateStr nowIso a).source = a.source ∧
     (publish_normalize nfkd dateStr nowIso a).image = a.image ∧
     (publish_normalize nfkd dateStr nowIso a).geo = a.geo ∧
     (publish_normalize nfkd dateStr nowIso a).featured = a.featured) ∧
    ((a.category.getD "technology") ∈ VALID_CATEGORIES →
      (∃ s, a.id = some s ∧ s ≠ "" ∧ pubSanitizeId nfkd s = s) →
      (∃ d, a.date = some d ∧ d ≠ "") →
      publish_normalize nfkd dateStr nowIso a = a) := by
  constructor
  · obtain ⟨v1, h1⟩ := pubNormCategory_shape a
    obtain ⟨v2, h2⟩ := pubNormId_shape nfkd dateStr (pubNormCategory a)
    obtain ⟨v3, h3⟩ := pubNormDate_shape nowIso
      (pubNormId nfkd dateStr (pubNormCategory a))
    unfold publish_normalize
    rw [h3, h2, h1]
    exact ⟨rfl, rfl, rfl, rfl, rfl, rfl, rfl, rfl, rfl, rfl, rfl, rfl⟩
  · rintro hc ⟨s, hs, hs0, hsan⟩ ⟨d, hd, hd0⟩
    have e1 : pubNormCategory a = a := by simp [pubNormCategory, hc]
    have e2 : pubNormId nfkd dateStr a = a := by simp [pubNormId, hs, hs0, hsan]
    have e3 : pubNormDate nowIso a = a := by simp [pubNormDate, hd, hd0]
    show pubNormDate nowIso (pubNormId nfkd dateStr (pubNormCategory a)) = a
    rw [e1, e2, e3]

/-- Witness for C7 (amended): a fully normalized candidate passes through
the publisher without any field changing. -/
theorem publisher_frame_witness :
    ("technology" ∈ VALID_CATEGORIES) ∧
    pubSanitizeId (fun c => [c]) "2025-10-12-test-article-pipeline-check" =
      "2025-10-12-test-article-pipeline-check" ∧
    publish_normalize (fun c => [c]) "2025-10-12" "2025-10-12T00:00:00+00:00"
      sampleArticle = sampleArticle := by
  refine ⟨by decide, by decide, ?_⟩
  exact (publisher_frame (fun c => [c]) "2025-10-12"
    "2025-10-12T00:00:00+00:00" sampleArticle).2 (by decide)
    ⟨"2025-10-12-test-article-pipeline-check", by decide, by decide, by decide⟩
    ⟨"2025-10-12T00:00:00+00:00", by decide, by decide⟩

/-! ## C4: category always in the fixed set -/

/-- Any category `normalize_category` lets through is in the fixed set. -/
theorem normalize_category_mem (o : Option JVal) (c : String)
    (h : normalize_category o = some c) : c ∈ VALID_CATEGORIES := by
  match o with
  | none => simp [normalize_category] at h; simp [← h, VALID_CATEGORIES]
  | some (.str s) =>
    simp only [normalize_category, Option.some.injEq] at h
    subst h
    split
    · rename_i hmem
      simpa using hmem
    · simp [VALID_CATEGORIES]
  | some .null | some (.num _) | some (.bool _) | some (.arr _) =>
    simp [normalize_category] at h

/-- The category used by the publisher is always in the fixed set. -/
theorem pubCategory_mem (a : Article) : pubCategory a ∈ VALID_CATEGORIES := by
  show (if VALID_CATEGORIES.contains (a.category.getD "technology") = true
      then a.category.getD "technology" else "technology") ∈ VALID_CATEGORIES
  split
  · rename_i hmem
    simpa using hmem
  · simp [VALID_CATEGORIES]

/-- C4: every candidate the rewriter post-processing emits carries a
category from the fixed 7-value set, an absent or unknown category being
coerced to `"technology"`; the publisher coerces any value outside the set
to `"technology"` as well, so the category it uses is always in the set. -/
theorem category_always_valid :
    (∀ (resp : Option RewriteResult) (entry : FeedEntry) (gm : GeoMap)
       (a : Article), process_article resp entry gm = some a →
         ∃ c, a.category = some c ∧ c ∈ VALID_CATEGORIES) ∧
    normalize_category none = some "technology" ∧
    (∀ s : String, pyToLower s ∉ VALID_CATEGORIES →
      normalize_category (some (.str s)) = some "technology") ∧
    (∀ a : Article, pubCategory a ∈ VALID_CATEGORIES) ∧
    (∀ a : Article, a.category = none → pubCategory a = "technology") ∧
    (∀ (a : Article) (c : String), a.category = some c →
      c ∉ VALID_CATEGORIES → pubCategory a = "technology") := by
  refine ⟨?_, rfl, ?_, ?_, ?_, ?_⟩
  · intro resp entry gm a h
    match resp with
    | none => simp [process_article] at h
    | some r =>
      simp only [process_article] at h
      rcases hn : normalize_category r.category with _ | c
      · rw [hn] at h; simp at h
      · rw [hn] at h
        simp only [Option.some.injEq] at h
        refine ⟨c, ?_, normalize_category_mem _ _ hn⟩
        rw [← h]
  · intro s hs
    simp [normalize_category, hs]
  · exact pubCategory_mem
  · intro a ha
    simp [pubCategory, ha]
  · intro a c hc hmem
    show (if VALID_CATEGORIES.contains (a.category.getD "technology") = true
        then a.category.getD "technology" else "technology") = "technology"
    rw [hc]
    rw [if_neg (by simp [hmem])]

/-- A concrete feed entry for witnesses. -/
def entryC : FeedEntry :=
  { source_name := "The Verge", source_url := "https://verge.example/rss",
    title := "Original title", link := "https://verge.example/a1",
    published := "2025-10-11T08:00:00+00:00", summary := "A summary." }

/-- Canonical fixture locations. -/
def zagrebLoc : Loc :=
  { name := "Zagreb, Croatia", lat := 45, lon := 15, countryCode := "HR" }

/-- Canonical fixture location for a company HQ. -/
def sfLoc : Loc :=
  { name := "San Francisco, USA", lat := 37, lon := -122, countryCode := "US" }

/-- A concrete gazetteer for witnesses. -/
def gmC : GeoMap :=
  { known_locations := [("zagreb", zagrebLoc), ("san francisco", sfLoc)],
    company_hq := [("openai", "san francisco"), ("acme", "atlantis")] }

/-- Witness for C4: the scenario response with category `"bogus"` is
coerced to `"technology"` both by the rewriter post-processing and by the
publisher. -/
theorem category_always_valid_witness :
    process_article
        (some { category := some (.str "bogus"), title := some "T",
                excerpt := some "E", content := some "Body", tags := some (.arr []),
                geo := none }) entryC gmC ≠ none ∧
    (∃ c, ((process_article
        (some { category := some (.str "bogus"), title := some "T",
                excerpt := some "E", content := some "Body", tags := some (.arr []),
                geo := none }) entryC gmC).getD bogusArticle).category = some c ∧
      c ∈ VALID_CATEGORIES) ∧
    pubCategory bogusArticle ∈ VALID_CATEGORIES := by
  have hsome : (process_article
      (some { category := some (.str "bogus"), title := some "T",
              excerpt := some "E", content := some "Body", tags := some (.arr []),
              geo := none }) entryC gmC).isSome = true := by decide
  obtain ⟨a0, ha⟩ := Option.isSome_iff_exists.mp hsome
  have hrun : process_article
      (some { category := some (.str "bogus"), title := some "T",
              excerpt := some "E", content := some "Body", tags := some (.arr []),
              geo := none }) entryC gmC =
      some (((process_article
        (some { category := some (.str "bogus"), title := some "T",
                excerpt := some "E", content := some "Body", tags := some (.arr []),
                geo := none }) entryC gmC).getD bogusArticle)) := by
    rw [ha]
    rfl
  refine ⟨?_, ?_, category_always_valid.2.2.2.1 bogusArticle⟩
  · rw [hrun]; simp
  · exact category_always_valid.1 _ entryC gmC _ hrun

/-! ## C8: tag normalization -/

/-- C8 counterexample: the stored tag list is NOT always of length 3 to 7.
A rewriter response whose `tags` is the empty list is accepted and stores
an empty tag list. -/
theorem tags_can_be_fewer_than_three :
    ((process_article
        (some { category := some (.str "ai"), title := some "T",
                excerpt := some "E", content := some "Body",
                tags := some (.arr []), geo := none }) entryC gmC).map
      Article.tags) = some (some []) ∧
    ¬ 3 ≤ ([] : List String).length := by
  constructor
  · decide
  · decide

/-- C8 (amended): the stored tag list has at most 7 entries (no lower
bound is enforced); a list value is capped to its first 7 elements, each
coerced to a string, lowercased and stripped; a non-list (or absent)
`tags` value yields the empty list. -/
theorem tags_normalization :
    (∀ (r : RewriteResult) (entry : FeedEntry) (gm : GeoMap) (a : Article),
      process_article (some r) entry gm = some a →
        ∃ ts, a.tags = some ts ∧ ts.length ≤ 7) ∧
    (∀ (r : RewriteResult) (entry : FeedEntry) (gm : GeoMap) (a : Article)
       (l : List JVal), r.tags = some (.arr l) →
      process_article (some r) entry gm = some a →
        a.tags = some ((l.take 7).map (fun t => pyStrip (pyToLower (jvalStr t))))) ∧
    (∀ (r : RewriteResult) (entry : FeedEntry) (gm : GeoMap) (a : Article),
      (∀ l, r.tags ≠ some (.arr l)) →
      process_article (some r) entry gm = some a → a.tags = some []) := by
  have htags : ∀ (r : RewriteResult) (entry : FeedEntry) (gm : GeoMap)
      (a : Article), process_article (some r) entry gm = some a →
      a.tags = some (normalize_tags r.tags) := by
    intro r entry gm a h
    simp only [process_article] at h
    rcases hn : normalize_category r.category with _ | c
    · rw [hn] at h; simp at h
    · rw [hn] at h
      simp only [Option.some.injEq] at h
      rw [← h]
  refine ⟨?_, ?_, ?_⟩
  · intro r entry gm a h
    refine ⟨normalize_tags r.tags, htags r entry gm a h, ?_⟩
    unfold normalize_tags
    split
    · rename_i l _
      calc ((l.take 7).map fun t => pyStrip (pyToLower (jvalStr t))).length
          = (l.take 7).length := by rw [List.length_map]
        _ ≤ 7 := List.length_take_le 7 l
    · simp
    · simp
  · intro r entry gm a l hl h
    rw [htags r entry gm a h, hl]
    rfl
  · intro r entry gm a hnl h
    rw [htags r entry gm a h]
    unfold normalize_tags
    split
    · rename_i l heq; exact absurd heq (hnl l)
    · rfl
    · rfl

/-- Witness for C8 (amended), at the spec scenario: eight upper-case tags
come out as exactly the first seven, lowercased. -/
theorem tags_normalization_witness :
    ((process_article
        (some { category := some (.str "bogus"), title := some "T",
                excerpt := some "E", content := some "Body",
                tags := some (.arr [.str "A", .str "B", .str "C", .str "D",
                                    .str "E", .str "F", .str "G", .str "H"]),
                geo := none }) entryC gmC).map Article.tags) =
      some (some ["a", "b", "c", "d", "e", "f", "g"]) := by
  have hsome : (process_article
      (some { category := some (.str "bogus"), title := some "T",
              excerpt := some "E", content := some "Body",
              tags := some (.arr [.str "A", .str "B", .str "C", .str "D",
                                  .str "E", .str "F", .str "G", .str "H"]),
              geo := none }) entryC gmC).isSome = true := by decide
  obtain ⟨a0, ha⟩ := Option.isSome_iff_exists.mp hsome
  have h := tags_normalization.2.1 _ entryC gmC a0
    [.str "A", .str "B", .str "C", .str "D", .str "E", .str "F", .str "G",
     .str "H"] rfl ha
  rw [ha]
  simp only [Option.map_some']
  rw [h]
  decide

/-! ## C10: review-message formatting over pipeline candidates -/

/-- C10 (code bug): the formatter is NOT total over pipeline candidates.
A rewriter response with `geo: null` produces a stored candidate whose
`geo` key is present with value `None`; `format_candidate` then evaluates
`article.get("geo", {}).get("name", "Global")`, where the inner `.get`
runs on `None` and raises `AttributeError` (modelled as `none`).  The
"Global" default is reached only when the `geo` key is absent altogether,
as the third conjunct shows. -/
theorem format_candidate_geo_none_crash :
    ((process_article
        (some { category := some (.str "ai"), title := some "Crash case",
                excerpt := some "E", content := some "Body",
                tags := some (.arr [.str "a", .str "b", .str "c"]),
                geo := none }) entryC gmC).map Article.geo) =
      some GeoField.null ∧
    ((process_article
        (some { category := some (.str "ai"), title := some "Crash case",
                excerpt := some "E", content := some "Body",
                tags := some (.arr [.str "a", .str "b", .str "c"]),
                geo := none }) entryC gmC).map format_candidate) =
      some none ∧
    (format_candidate { sampleArticle with geo := .absent }).isSome = true := by
  refine ⟨by decide, by decide, by decide⟩

/-! ## C3: geo resolution precedence -/

/-- C3: when some known-location key is contained (case-insensitively) in
the guessed name, the resolver returns that location's canonical record,
never the model's raw coordinates; failing that, a company whose name is
contained in the guess and whose HQ key is in the known-location table
yields the HQ's canonical record; failing both, the model's own lat/lon
are passed through only when both are present, and nothing is returned
otherwise. -/
theorem resolve_geo_precedence (gm : GeoMap) (g : GeoRaw)
    (hne : g ≠ { name := none, lat := none, lon := none, countryCode := none }) :
    ((∃ kl ∈ gm.known_locations, containsCI (g.name.getD "") kl.1 = true) →
      ∃ kl ∈ gm.known_locations, containsCI (g.name.getD "") kl.1 = true ∧
        resolve_geo (some g) gm =
          some { name := kl.2.name, lat := kl.2.lat, lon := kl.2.lon,
                 countryCode := kl.2.countryCode }) ∧
    ((∀ kl ∈ gm.known_locations, containsCI (g.name.getD "") kl.1 = false) →
      (∃ ch ∈ gm.company_hq, containsCI (g.name.getD "") ch.1 = true ∧
        (gm.known_locations.find? (fun kl => kl.1 = ch.2)).isSome) →
      ∃ ch ∈ gm.company_hq, ∃ kl ∈ gm.known_locations, kl.1 = ch.2 ∧
        containsCI (g.name.getD "") ch.1 = true ∧
        resolve_geo (some g) gm =
          some { name := kl.2.name, lat := kl.2.lat, lon := kl.2.lon,
                 countryCode := kl.2.countryCode }) ∧
    ((∀ kl ∈ gm.known_locations, containsCI (g.name.getD "") kl.1 = false) →
      (∀ ch ∈ gm.company_hq, ¬(containsCI (g.name.getD "") ch.1 = true ∧
        (gm.known_locations.find? (fun kl => kl.1 = ch.2)).isSome = true)) →
      resolve_geo (some g) gm =
        match g.lat, g.lon with
        | some la, some lo =>
          some { name := g.name.getD "Unknown", lat := la, lon := lo,
                 countryCode := g.countryCode.getD "" }
        | _, _ => none) := by
  refine ⟨?_, ?_, ?_⟩
  · rintro ⟨kl, hmem, hp⟩
    have hsome : (gm.known_locations.find?
        (fun kl => containsCI (g.name.getD "") kl.1)).isSome := by
      rw [List.find?_isSome]
      exact ⟨kl, hmem, hp⟩
    rcases hfind : gm.known_locations.find?
        (fun kl => containsCI (g.name.getD "") kl.1) with _ | kl0
    · rw [hfind] at hsome; simp at hsome
    · have hp0 : (fun kl => containsCI (g.name.getD "") kl.1) kl0 = true :=
        List.find?_some
          (p := fun (kl : String × Loc) => containsCI (g.name.getD "") kl.1) hfind
      refine ⟨kl0, List.mem_of_find?_eq_some hfind, hp0, ?_⟩
      simp only [resolve_geo, if_neg hne, hfind]
  · intro hknone ⟨ch, hchmem, hchp, hchq⟩
    have hkfind : gm.known_locations.find?
        (fun kl => containsCI (g.name.getD "") kl.1) = none := by
      rw [List.find?_eq_none]
      intro kl hkl
      simp [hknone kl hkl]
    have hcsome : (gm.company_hq.find? (fun ch =>
        containsCI (g.name.getD "") ch.1 &&
        (gm.known_locations.find? (fun kl => kl.1 = ch.2)).isSome)).isSome := by
      rw [List.find?_isSome]
      exact ⟨ch, hchmem, by simp [hchp, hchq]⟩
    rcases hcfind : gm.company_hq.find? (fun ch =>
        containsCI (g.name.getD "") ch.1 &&
        (gm.known_locations.find? (fun kl => kl.1 = ch.2)).isSome) with _ | ch0
    · rw [hcfind] at hcsome; simp at hcsome
    · have hch0 := List.find?_some hcfind
      rw [Bool.and_eq_true] at hch0
      rcases hq : gm.known_locations.find? (fun kl => kl.1 = ch0.2) with _ | kl0
      · rw [hq] at hch0; simp at hch0
      · have hkl0p : kl0.1 = ch0.2 := by
          have := List.find?_some hq
          simpa using this
        refine ⟨ch0, List.mem_of_find?_eq_some hcfind, kl0,
          List.mem_of_find?_eq_some hq, hkl0p, hch0.1, ?_⟩
        simp only [resolve_geo, if_neg hne, hkfind, hcfind, hq]
  · intro hknone hcnone
    have hkfind : gm.known_locations.find?
        (fun kl => containsCI (g.name.getD "") kl.1) = none := by
      rw [List.find?_eq_none]
      intro kl hkl
      simp [hknone kl hkl]
    have hcfind : gm.company_hq.find? (fun ch =>
        containsCI (g.name.getD "") ch.1 &&
        (gm.known_locations.find? (fun kl => kl.1 = ch.2)).isSome) = none := by
      rw [List.find?_eq_none]
      intro ch hch
      have := hcnone ch hch
      simp only [Bool.and_eq_true]
      intro hand
      exact this ⟨hand.1, hand.2⟩
    simp only [resolve_geo, if_neg hne, hkfind, hcfind]

/-- A concrete guess whose name contains the known key "zagreb" and also
raw coordinates that must be ignored. -/
def gRawC : GeoRaw :=
  { name := some "Greater Zagreb Area", lat := some 99, lon := some 99,
    countryCode := some "XX" }

/-- Witness for C3: on `gRawC` and the fixture gazetteer the resolver
returns the canonical record of a matching known location. -/
theorem resolve_geo_precedence_witness :
    ∃ kl ∈ gmC.known_locations,
      containsCI (gRawC.name.getD "") kl.1 = true ∧
      resolve_geo (some gRawC) gmC =
        some { name := kl.2.name, lat := kl.2.lat, lon := kl.2.lon,
               countryCode := kl.2.countryCode } := by
  refine (resolve_geo_precedence gmC gRawC (by decide)).1 ?_
  exact ⟨("zagreb", zagrebLoc), by decide, by decide⟩

/-! ## C2: deduplication invariants of a scrape run -/

/-- Invariant carried through a scrape run: the initial seen set stays in
the seen set, every emitted entry's link is in the seen set but was not in
the initial one, and emitted links are pairwise distinct. -/
def ScrapeInv (seen0 : List String) (st : ScrapeSt) : Prop :=
  (∀ l ∈ seen0, l ∈ st.seen) ∧
  (∀ e ∈ st.entries, e.link ∈ st.seen ∧ e.link ∉ seen0) ∧
  (st.entries.map FeedEntry.link).Nodup

theorem scrapeStep_inv {seen0 : List String} (env : ScrapeEnv)
    (name url : String) {st : ScrapeSt} (item : FeedItem)
    (h : ScrapeInv seen0 st) : ScrapeInv seen0 (scrapeStep env name url st item) := by
  obtain ⟨h1, h2, h3⟩ := h
  simp only [scrapeStep]
  split
  · exact ⟨h1, h2, h3⟩
  · rename_i hcond
    push_neg at hcond
    obtain ⟨hl0, hlseen⟩ := hcond
    have hlnotmem : item.link.getD "" ∉ st.seen := by
      intro hmem
      exact hlseen (by simpa using hmem)
    refine ⟨?_, ?_, ?_⟩
    · intro x hx
      exact List.mem_cons_of_mem _ (h1 x hx)
    · intro e he
      rw [List.mem_append] at he
      rcases he with he | he
      · obtain ⟨ha, hb⟩ := h2 e he
        exact ⟨List.mem_cons_of_mem _ ha, hb⟩
      · rw [List.mem_singleton] at he
        subst he
        refine ⟨List.mem_cons_self _ _, ?_⟩
        intro hx
        exact hlnotmem (h1 _ hx)
    · rw [List.map_append, List.nodup_append]
      refine ⟨h3, List.nodup_singleton _, ?_⟩
      intro x hx hx2
      rw [List.map_singleton, List.mem_singleton] at hx2
      subst hx2
      obtain ⟨e, he, hel⟩ := List.mem_map.mp hx
      have hel' : e.link = item.link.getD "" := hel
      exact hlnotmem (hel' ▸ (h2 e he).1)

theorem scrapeItems_inv {seen0 : List String} (env : ScrapeEnv)
    (name url : String) (items : List FeedItem) :
    ∀ st : ScrapeSt, ScrapeInv seen0 st →
      ScrapeInv seen0 (items.foldl (scrapeStep env name url) st) := by
  induction items with
  | nil => intro st h; exact h
  | cons item items ih =>
    intro st h
    exact ih _ (scrapeStep_inv env name url item h)

theorem scrapeSource_inv {seen0 : List String} (env : ScrapeEnv)
    (source : Source) {st : ScrapeSt} (h : ScrapeInv seen0 st) :
    ScrapeInv seen0 (scrapeSource env st source) := by
  unfold scrapeSource
  split
  · exact h
  · split
    · exact h
    · exact scrapeItems_inv env source.name source.url _ st h

theorem scrape_feeds_inv (env : ScrapeEnv) (sources : List Source)
    (seen0 : List String) :
    ScrapeInv seen0 (scrape_feeds env sources seen0) := by
  have main : ∀ (srcs : List Source) (st0 : ScrapeSt), ScrapeInv seen0 st0 →
      ScrapeInv seen0 (srcs.foldl (scrapeSource env) st0) := by
    intro srcs
    induction srcs with
    | nil => intro st0 base; exact base
    | cons source srcs ih =>
      intro st0 base
      exact ih _ (scrapeSource_inv env source base)
  exact main sources { seen := seen0, entries := [] }
    ⟨fun _ h => h, by simp, by simp⟩

theorem countP_link_le_one (es : List FeedEntry)
    (hnd : (es.map FeedEntry.link).Nodup) (l : String) :
    es.countP (fun e => e.link == l) ≤ 1 := by
  induction es with
  | nil => simp
  | cons e es ih =>
    rw [List.map_cons, List.nodup_cons] at hnd
    obtain ⟨hnotin, hnd'⟩ := hnd
    rw [List.countP_cons]
    by_cases hel : e.link == l
    · have h0 : es.countP (fun e' => e'.link == l) = 0 := by
        rw [List.countP_eq_zero]
        intro e' he'
        simp only [beq_iff_eq]
        intro heq
        apply hnotin
        have : e.link = l := by simpa using hel
        rw [this, ← heq]
        exact List.mem_map_of_mem FeedEntry.link he'
      simp [hel, h0]
    · simp only [hel, if_false, Bool.false_eq_true, add_zero]
      exact ih hnd'

/-- C2: in one scrape run every link yields at most one emitted entry,
links already in the loaded seen set yield none, and the persisted seen
set contains everything the loaded one did. -/
theorem scrape_dedup (env : ScrapeEnv) (sources : List Source)
    (seen0 : List String) :
    (∀ l ∈ seen0, l ∈ (scrape_feeds env sources seen0).seen) ∧
    (∀ l : String, (scrape_feeds env sources seen0).entries.countP
      (fun e => e.link == l) ≤ 1) ∧
    (∀ l ∈ seen0, (scrape_feeds env sources seen0).entries.countP
      (fun e => e.link == l) = 0) := by
  obtain ⟨h1, h2, h3⟩ := scrape_feeds_inv env sources seen0
  refine ⟨h1, ?_, ?_⟩
  · intro l
    exact countP_link_le_one _ h3 l
  · intro l hl
    rw [List.countP_eq_zero]
    intro e he
    simp only [beq_iff_eq]
    intro heq
    exact (h2 e he).2 (heq ▸ hl)

/-- Fixture: two feeds that share the link `https://dup/x`; the link
`https://old/seen` is already in the loaded seen set. -/
def envC2 : ScrapeEnv :=
  { fetch := fun src =>
      if src.name = "A" then
        some [{ link := some "https://dup/x", title := some "Dup",
                summary := some "s", description := none,
                published := "2025-10-11T08:00:00+00:00" },
              { link := some "https://old/seen", title := some "Old",
                summary := none, description := some "d",
                published := "2025-10-11T08:00:00+00:00" }]
      else if src.name = "B" then
        some [{ link := some "https://dup/x", title := some "Dup again",
                summary := some "s", description := none,
                published := "2025-10-11T09:00:00+00:00" },
              { link := some "https://b/only", title := some "B",
                summary := some "s2", description := none,
                published := "2025-10-11T09:00:00+00:00" }]
      else none,
    cleanHtml := fun s => s }

/-- The two fixture sources. -/
def sourcesC2 : List Source :=
  [{ name := "A", url := "https://a/rss" }, { name := "B", url := "https://b/rss" }]

/-- Witness for C2 on the fixture run: the pre-seen link survives into the
persisted set, the cross-feed duplicate is emitted at most once, and the
pre-seen link is emitted zero times. -/
theorem scrape_dedup_witness :
    "https://old/seen" ∈ (scrape_feeds envC2 sourcesC2 ["https://old/seen"]).seen ∧
    (scrape_feeds envC2 sourcesC2 ["https://old/seen"]).entries.countP
      (fun e => e.link == "https://dup/x") ≤ 1 ∧
    (scrape_feeds envC2 sourcesC2 ["https://old/seen"]).entries.countP
      (fun e => e.link == "https://old/seen") = 0 := by
  refine ⟨(scrape_dedup envC2 sourcesC2 ["https://old/seen"]).1
      "https://old/seen" (by decide),
    (scrape_dedup envC2 sourcesC2 ["https://old/seen"]).2.1 "https://dup/x",
    (scrape_dedup envC2 sourcesC2 ["https://old/seen"]).2.2
      "https://old/seen" (by decide)⟩

/-! ## C5: create-vs-update semantics of the publish request -/

/-- C5: for any publish run that reaches the PUT, when a document already
exists at the target path its concurrency token (sha) is attached to the
request and the commit message is the update form; when none exists the
request carries no token and the create ("Add article") form is used, so
re-publishing the same identifier and category updates in place instead
of duplicating. -/
theorem publish_create_or_update (nfkd : Char → List Char)
    (repo : String → Option String) (branch dateStr nowIso : String)
    (article a : Article) (path : String) (pl : GitPayload)
    (h : publish_to_github nfkd repo branch dateStr nowIso true article =
      some (a, path, pl)) :
    pl.branch = branch ∧
    (∀ sha, get_existing_file_sha repo path = some sha →
      pl.sha = some sha ∧
      pl.message = "Update article: " ++ (a.title.getD "").take 60) ∧
    (get_existing_file_sha repo path = none →
      pl.sha = none ∧
      pl.message = "Add article: " ++ (a.title.getD "").take 60) := by
  simp only [publish_to_github, Bool.not_true, Bool.false_eq_true,
    if_false] at h
  rcases hm : generate_mdx (publish_normalize nfkd dateStr nowIso article)
    with _ | mdx
  · rw [hm] at h
    simp at h
  · rw [hm] at h
    simp only [Option.some.injEq, Prod.mk.injEq] at h
    obtain ⟨ha, hpath, hpl⟩ := h
    subst ha
    subst hpath
    subst hpl
    rcases hrepo : repo ("content/" ++ pubCategory article ++ "/" ++
        (publish_normalize nfkd dateStr nowIso article).id.getD "" ++ ".mdx")
      with _ | sha
    · simp [build_put_payload, get_existing_file_sha, hrepo]
    · simp [build_put_payload, get_existing_file_sha, hrepo]

/-- The GitHub contents state used by the C5 witness: the target path of
the `cmd_test` candidate already holds a document with sha `oldsha`. -/
def repoC : String → Option String := fun p =>
  if p = "content/technology/2025-10-12-test-article-pipeline-check.mdx"
  then some "oldsha" else none

set_option maxRecDepth 4000 in
/-- Witness for C5: publishing the `cmd_test` candidate against `repoC`
produces an update request carrying the existing sha. -/
theorem publish_create_or_update_witness :
    ((publish_to_github (fun c => [c]) repoC "main" "2025-10-12"
        "2025-10-12T00:00:00+00:00" true sampleArticle).map
      (fun r => (r.2.2.sha, r.2.2.message, r.2.2.branch))) =
      some (some "oldsha", "Update article: Test Article — Pipeline Check",
        "main") := by
  have hsome : (publish_to_github (fun c => [c]) repoC "main" "2025-10-12"
      "2025-10-12T00:00:00+00:00" true sampleArticle).isSome = true := by decide
  obtain ⟨⟨a, path, pl⟩, h⟩ := Option.isSome_iff_exists.mp hsome
  have hpath1 : (publish_to_github (fun c => [c]) repoC "main" "2025-10-12"
      "2025-10-12T00:00:00+00:00" true sampleArticle).map (fun r => r.2.1) =
      some path := by rw [h]; rfl
  have hpath2 : (publish_to_github (fun c => [c]) repoC "main" "2025-10-12"
      "2025-10-12T00:00:00+00:00" true sampleArticle).map (fun r => r.2.1) =
      some "content/technology/2025-10-12-test-article-pipeline-check.mdx" := by
    decide
  have hpath : path =
      "content/technology/2025-10-12-test-article-pipeline-check.mdx" :=
    Option.some.inj (hpath1.symm.trans hpath2)
  have htitle1 : (publish_to_github (fun c => [c]) repoC "main" "2025-10-12"
      "2025-10-12T00:00:00+00:00" true sampleArticle).map (fun r => r.1.title) =
      some a.title := by rw [h]; rfl
  have htitle2 : (publish_to_github (fun c => [c]) repoC "main" "2025-10-12"
      "2025-10-12T00:00:00+00:00" true sampleArticle).map (fun r => r.1.title) =
      some (some "Test Article — Pipeline Check") := by decide
  have htitle : a.title = some "Test Article — Pipeline Check" :=
    Option.some.inj (htitle1.symm.trans htitle2)
  have hrepo : get_existing_file_sha repoC path = some "oldsha" := by
    rw [hpath]; decide
  have h2 := (publish_create_or_update (fun c => [c]) repoC "main" "2025-10-12"
    "2025-10-12T00:00:00+00:00" sampleArticle a path pl h).2.1 "oldsha" hrepo
  have h3 := (publish_create_or_update (fun c => [c]) repoC "main" "2025-10-12"
    "2025-10-12T00:00:00+00:00" sampleArticle a path pl h).1
  rw [h]
  simp only [Option.map_some', Option.some.injEq, Prod.mk.injEq]
  refine ⟨h2.1, ?_, h3⟩
  rw [h2.2, htitle]
  decide

/-! ## C9: the identifier in the target path is an ASCII slug -/

theorem isLowerDigit_or_dash_ascii {c : Char}
    (h : isLowerDigit c = true ∨ c = '-') : c.toNat < 128 := by
  rcases h with h | h
  · have h' : ('a' ≤ c ∧ c ≤ 'z') ∨ ('0' ≤ c ∧ c ≤ '9') := by
      simpa [isLowerDigit] using h
    rcases h' with ⟨_, h2⟩ | ⟨_, h2⟩
    · rw [Char.le_def, UInt32.le_def] at h2
      have h2' : c.val.toNat ≤ 122 := le_trans h2 (by decide)
      show c.val.toNat < 128
      omega
    · rw [Char.le_def, UInt32.le_def] at h2
      have h2' : c.val.toNat ≤ 57 := le_trans h2 (by decide)
      show c.val.toNat < 128
      omega
  · subst h
    decide

theorem mem_pubGenSlug {nfkd : Char → List Char} {title : String} {c : Char}
    (h : c ∈ pubGenSlug nfkd title) : isLowerDigit c = true ∨ c = '-' := by
  simp only [pubGenSlug] at h
  have h1 := mem_rstripCharL h
  have h2 := (List.take_sublist 60 _).mem h1
  have h3 := mem_stripCharL h2
  rcases mem_collapseRuns _ _ _ h3 with h4 | h4
  · right; exact h4
  · left; simpa using h4

theorem mem_pubSanitizeId {nfkd : Char → List Char} {old_id : String}
    {c : Char} (h : c ∈ (pubSanitizeId nfkd old_id).toList) :
    isLowerDigit c = true ∨ c = '-' := by
  simp only [pubSanitizeId] at h
  have h1 := mem_rstripCharL h
  have h2 := mem_stripCharL h1
  rcases mem_collapseRuns _ _ _ h2 with h4 | h4
  · right; exact h4
  · rw [Bool.not_eq_false', Bool.or_eq_true] at h4
    rcases h4 with h4 | h4
    · left; exact h4
    · right; simpa using h4

theorem mem_pubGenId {nfkd : Char → List Char} {dateStr : String}
    {title? : Option String} {c : Char}
    (hdate : ∀ c ∈ dateStr.toList, isLowerDigit c = true ∨ c = '-')
    (h : c ∈ (pubGenId nfkd dateStr title?).toList) :
    isLowerDigit c = true ∨ c = '-' := by
  simp only [pubGenId] at h
  rw [show (String.mk (dateStr.toList ++ '-' ::
      pubGenSlug nfkd (title?.getD "untitled"))).toList =
      dateStr.toList ++ '-' :: pubGenSlug nfkd (title?.getD "untitled") from rfl,
    List.mem_append, List.mem_cons] at h
  rcases h with h | h | h
  · exact hdate c h
  · right; exact h
  · exact mem_pubGenSlug h

/-- The id the id block produces is always present and consists only of
`[a-z0-9-]` characters. -/
theorem pubNormId_id_chars (nfkd : Char → List Char) (dateStr : String)
    (b : Article)
    (hdate : ∀ c ∈ dateStr.toList, isLowerDigit c = true ∨ c = '-') :
    ∃ idStr, (pubNormId nfkd dateStr b).id = some idStr ∧
      ∀ c ∈ idStr.toList, isLowerDigit c = true ∨ c = '-' := by
  rcases hb : b.id with _ | s
  · simp only [pubNormId, hb]
    exact ⟨pubGenId nfkd dateStr b.title, rfl,
      fun c hc => mem_pubGenId hdate hc⟩
  · simp only [pubNormId, hb]
    by_cases hs : s = ""
    · rw [if_pos hs]
      exact ⟨pubGenId nfkd dateStr b.title, rfl,
        fun c hc => mem_pubGenId hdate hc⟩
    · rw [if_neg hs]
      by_cases hsan : pubSanitizeId nfkd s = s
      · rw [if_pos hsan]
        exact ⟨s, hb, fun c hc => mem_pubSanitizeId (hsan.symm ▸ hc)⟩
      · rw [if_neg hsan]
        exact ⟨pubSanitizeId nfkd s, rfl, fun c hc => mem_pubSanitizeId hc⟩

/-- The id field after `publish_to_github`'s normalization is always
present and consists only of `[a-z0-9-]` characters. -/
theorem publish_normalize_id_chars (nfkd : Char → List Char)
    (dateStr nowIso : String) (a : Article)
    (hdate : ∀ c ∈ dateStr.toList, isLowerDigit c = true ∨ c = '-') :
    ∃ idStr, (publish_normalize nfkd dateStr nowIso a).id = some idStr ∧
      ∀ c ∈ idStr.toList, isLowerDigit c = true ∨ c = '-' := by
  obtain ⟨idStr, hid, hch⟩ :=
    pubNormId_id_chars nfkd dateStr (pubNormCategory a) hdate
  obtain ⟨v3, h3⟩ := pubNormDate_shape nowIso
    (pubNormId nfkd dateStr (pubNormCategory a))
  refine ⟨idStr, ?_, hch⟩
  simp only [publish_normalize, h3]
  exact hid

/-- C9: in every publish run that reaches the PUT, the identifier used in
the target path `content/<category>/<id>.mdx` consists only of `[a-z0-9-]`
characters (in particular it is pure ASCII) — an absent id having been
generated by slugification and a present one sanitized — and the category
component is always a member of the fixed category set. -/
theorem publish_path_ascii (nfkd : Char → List Char)
    (repo : String → Option String) (branch dateStr nowIso : String)
    (article a : Article) (path : String) (pl : GitPayload)
    (hdate : ∀ c ∈ dateStr.toList, isLowerDigit c = true ∨ c = '-')
    (h : publish_to_github nfkd repo branch dateStr nowIso true article =
      some (a, path, pl)) :
    ∃ idStr, a.id = some idStr ∧
      (∀ c ∈ idStr.toList, isLowerDigit c = true ∨ c = '-') ∧
      (∀ c ∈ idStr.toList, c.toNat < 128) ∧
      path = "content/" ++ pubCategory article ++ "/" ++ idStr ++ ".mdx" ∧
      pubCategory article ∈ VALID_CATEGORIES := by
  simp only [publish_to_github, Bool.not_true, Bool.false_eq_true,
    if_false] at h
  rcases hm : generate_mdx (publish_normalize nfkd dateStr nowIso article)
    with _ | mdx
  · rw [hm] at h
    simp at h
  · rw [hm] at h
    simp only [Option.some.injEq, Prod.mk.injEq] at h
    obtain ⟨ha, hpath, _⟩ := h
    obtain ⟨idStr, hid, hchars⟩ :=
      publish_normalize_id_chars nfkd dateStr nowIso article hdate
    refine ⟨idStr, ha ▸ hid, hchars,
      fun c hc => isLowerDigit_or_dash_ascii (hchars c hc), ?_, ?_⟩
    · rw [← hpath, hid]
      rfl
    · exact pubCategory_mem article

/-- Fixture for the generated-id branch: no id, an invalid category, and a
title with punctuation and double spaces. -/
def genArticle : Article :=
  { bogusArticle with id := none, title := some "Test,  Article!! 42" }

set_option maxRecDepth 4000 in
/-- Witness for C9: publishing `genArticle` generates the slug id
`2025-10-12-test-article-42`, whose characters are all ASCII. -/
theorem publish_path_ascii_witness :
    ((publish_to_github (fun c => [c]) repoC "main" "2025-10-12"
        "2025-10-12T00:00:00+00:00" true genArticle).map (fun r => r.1.id)) =
      some (some "2025-10-12-test-article-42") ∧
    (∀ c ∈ "2025-10-12-test-article-42".toList, c.toNat < 128) := by
  have hsome : (publish_to_github (fun c => [c]) repoC "main" "2025-10-12"
      "2025-10-12T00:00:00+00:00" true genArticle).isSome = true := by decide
  obtain ⟨⟨a, path, pl⟩, h⟩ := Option.isSome_iff_exists.mp hsome
  obtain ⟨idStr, hid, hch, hascii, hpath, hcat⟩ :=
    publish_path_ascii (fun c => [c]) repoC "main" "2025-10-12"
      "2025-10-12T00:00:00+00:00" genArticle a path pl (by decide) h
  have hida : (publish_to_github (fun c => [c]) repoC "main" "2025-10-12"
      "2025-10-12T00:00:00+00:00" true genArticle).map (fun r => r.1.id) =
      some a.id := by rw [h]; rfl
  have hidb : (publish_to_github (fun c => [c]) repoC "main" "2025-10-12"
      "2025-10-12T00:00:00+00:00" true genArticle).map (fun r => r.1.id) =
      some (some "2025-10-12-test-article-42") := by decide
  have hida2 : a.id = some "2025-10-12-test-article-42" :=
    Option.some.inj (hida.symm.trans hidb)
  have hidc : idStr = "2025-10-12-test-article-42" :=
    Option.some.inj (hid.symm.trans hida2)
  refine ⟨hidb, ?_⟩
  rw [← hidc]
  exact hascii

end TechPulse
